import Mathlib

/-!
Shallow embedding of `src/mdtoc/mdtoc.py` (a markdown table-of-contents
extractor) together with proofs about its behaviour.

Python strings are modelled as Lean `String`s; the Python string methods
used by the script (`startswith`, `rstrip`, `split`, `lower`, `join`,
string comparison) are embedded as executable functions over the
character data.  Python's `.lower()`, `.isspace()` and `str.split()` are
Unicode-aware; the embedding covers the ASCII fragment, which is all the
script's own string constants and diagnostics use.
-/

namespace Mdtoc

/-- ASCII whitespace, as recognised by Python's `str.split()` / `str.rstrip()`
(space, tab, newline, carriage return, vertical tab, form feed). -/
def pyIsSpace (c : Char) : Bool :=
  c = ' ' || c = '\t' || c = '\n' || c = '\r' || c = '\x0b' || c = '\x0c'

/-- Python `s.startswith(p)`. -/
def pyStartswith (s p : String) : Bool :=
  List.isPrefixOf p.data s.data

/-- Python `s.rstrip()` with no argument: drop trailing whitespace. -/
def pyRstrip (s : String) : String :=
  String.mk ((s.data.reverse.dropWhile pyIsSpace).reverse)

/-- Worker for `pySplit`: `cur` is the current (reversed) in-progress token. -/
def pySplitGo : List Char → List Char → List String
  | [], cur => if cur.isEmpty then [] else [String.mk cur.reverse]
  | c :: cs, cur =>
    if pyIsSpace c then
      if cur.isEmpty then pySplitGo cs [] else String.mk cur.reverse :: pySplitGo cs []
    else
      pySplitGo cs (c :: cur)

/-- Python `s.split()` with no argument: split on runs of whitespace,
discarding empty tokens. -/
def pySplit (s : String) : List String :=
  pySplitGo s.data []

/-- ASCII lowering of one character, as Python `str.lower()` acts on ASCII. -/
def pyCharLower (c : Char) : Char :=
  if 'A' ≤ c ∧ c ≤ 'Z' then Char.ofNat (c.toNat + 32) else c

/-- Python `s.lower()` (ASCII fragment). -/
def pyLower (s : String) : String :=
  String.mk (s.data.map pyCharLower)

/-- Python `sep.join(xs)`. -/
def pyJoin (sep : String) (xs : List String) : String :=
  String.intercalate sep xs

/-- Python string `<` on character data: lexicographic by code point. -/
def pyStrLtb : List Char → List Char → Bool
  | [], [] => false
  | [], _ :: _ => true
  | _ :: _, [] => false
  | a :: as, b :: bs => if a < b then true else if b < a then false else pyStrLtb as bs

/-- Python string `<=`: `a <= b` iff not `b < a`. -/
def pyStrLe (a b : String) : Bool :=
  !(pyStrLtb b.data a.data)

/-- Python `sorted(xs)` for a list of strings: a stable ascending sort under
code-point lexicographic order. -/
def pySorted (xs : List String) : List String :=
  List.insertionSort (fun a b => pyStrLe a b = true) xs

/-- The module-level default whitelist `WHITELIST` of `_get_heading_whitelist`. -/
def WHITELIST : List String :=
  ["#", "##", "###", "####", "#####", "######"]

/-- Python list indexing `xs[i]`: negative indices count from the end,
out-of-range access is an `IndexError`, modelled as `none`. -/
def pyIndex (xs : List String) (i : Int) : Option String :=
  let j : Int := if i < 0 then i + xs.length else i
  if 0 ≤ j then xs.get? j.toNat else none

/-- The `for i in args: user_whitelist.append(WHITELIST[i - 1])` loop of
`_get_heading_whitelist`, inside its `try`: the first `IndexError` aborts the
whole loop.  Returns the markers collected so far and, when the loop was
aborted, the offending value (for which the `except` branch prints one
diagnostic). -/
def whitelistLoop : List Int → List String → List String × Option Int
  | [], acc => (acc, none)
  | i :: rest, acc =>
    match pyIndex WHITELIST (i - 1) with
    | some m => whitelistLoop rest (acc ++ [m])
    | none => (acc, some i)

/-- `_get_heading_whitelist(args)`: `return user_whitelist or WHITELIST`.
An absent `-w` flag (Python `None`) and an empty list are both falsy and are
modelled as the empty list. -/
def _get_heading_whitelist (args : List Int) : List String :=
  let user_whitelist := (whitelistLoop args []).1
  if user_whitelist.isEmpty then WHITELIST else user_whitelist

/-- The diagnostics printed by `_get_heading_whitelist`: one
`"[-w] Invalid argument: i"` line for the value at which the loop raised,
if any. -/
def whitelistMsgs (args : List Int) : List String :=
  match (whitelistLoop args []).2 with
  | none => []
  | some i => ["[-w] Invalid argument: " ++ toString i]

/-- The observable facts about a `pathlib.Path` that `_valid_path` consults:
whether the path exists and its `suffix` (the final extension, dot included,
original case preserved). -/
structure PathInfo where
  exists_ : Bool
  suffix : String
deriving DecidableEq, Repr

/-- `_valid_path(path)`: returns whether the path is acceptable along with
the error lines it prints. -/
def _valid_path (p : PathInfo) : Bool × List String :=
  if !p.exists_ then
    (false, ["ERROR:  Invalid path or destination."])
  else if !([".md", ".markdown"].contains (pyLower p.suffix)) then
    (false, ["ERROR:  Expected file format is '.md' or '.markdown'"])
  else
    (true, [])

/-- Is this a fenced-code delimiter line (`line.startswith("```")`)? -/
def isFenceLine (line : String) : Bool :=
  pyStartswith line "```"

/-- One step of the `fenced_code` flag: toggled by a fence line, otherwise
unchanged. -/
def lineFenced (fenced : Bool) (line : String) : Bool :=
  if isFenceLine line then !fenced else fenced

/-- The f-string `f"[{title}](#{link})"` appended by `parse_file` for the
tokens after the heading marker. -/
def mkEntry (rest : List String) : String :=
  let title := pyJoin " " rest
  let link := pyLower (pyJoin "-" rest)
  "[" ++ title ++ "](#" ++ link ++ ")"

/-- The body of `parse_file`'s loop for one line, given the flag value
before the line: the entry appended for this line, if any.  The flag is
first updated (the toggle precedes the heading test in the source); the
heading test then uses the updated flag.  The `tokens[0]` access is safe
here because a line passing `startswith('#')` always splits into at least
one token; the (unreachable) empty-token case emits nothing.  The
`Except`-valued variant `lineEmitE` below keeps that case as an error. -/
def lineEmit (headings : List String) (fenced : Bool) (line : String) : Option String :=
  let fenced' := lineFenced fenced line
  if !fenced' && pyStartswith line "#" then
    match pySplit (pyRstrip line) with
    | [] => none
    | t0 :: rest => if headings.contains t0 then some (mkEntry rest) else none
  else
    none

/-- `parse_file`'s loop from a given value of the `fenced_code` flag. -/
def parseFileFrom (headings : List String) : Bool → List String → List String
  | _, [] => []
  | fenced, line :: rest =>
    (lineEmit headings fenced line).toList ++
      parseFileFrom headings (lineFenced fenced line) rest

/-- `parse_file(file_handle, headings)`: the file is the list of its lines;
`fenced_code` starts `False`. -/
def parse_file (lines : List String) (headings : List String) : List String :=
  parseFileFrom headings false lines

/-- Variant of `lineEmit` in which the Python expression `tokens[0]` is
embedded as a fallible list access: on an empty token list it is an
`IndexError`.  Used to state that `parse_file` never raises. -/
def lineEmitE (headings : List String) (fenced : Bool) (line : String) :
    Except String (Option String) :=
  let fenced' := lineFenced fenced line
  if !fenced' && pyStartswith line "#" then
    match pySplit (pyRstrip line) with
    | [] => Except.error "IndexError: list index out of range"
    | t0 :: rest => Except.ok (if headings.contains t0 then some (mkEntry rest) else none)
  else
    Except.ok none

/-- `parse_file` with the fallible `tokens[0]` access, propagating a raised
`IndexError`. -/
def parseFileFromE (headings : List String) : Bool → List String → Except String (List String)
  | _, [] => Except.ok []
  | fenced, line :: rest => do
    let e ← lineEmitE headings fenced line
    let out ← parseFileFromE headings (lineFenced fenced line) rest
    return e.toList ++ out

/-- Fallible `parse_file` from the initial state. -/
def parse_fileE (lines : List String) (headings : List String) : Except String (List String) :=
  parseFileFromE headings false lines

/-- The command-line arguments as resolved by `get_args`:  `path` is the
positional argument, `alphabetical` defaults to false (`store_true`),
`clipboard` and `output` default to true (`store_false`), `whitelist` is the
`-w` integer list (absent modelled as `[]`, which Python treats the same as
`None` here since both are falsy). -/
structure Args where
  path : PathInfo
  alphabetical : Bool
  clipboard : Bool
  output : Bool
  whitelist : List Int

/-- Everything observable about one run of `main`: its return value, the
non-TOC lines printed (whitelist diagnostics and error messages), the TOC
lines printed, and the text placed on the clipboard (none when
`set_win_clipboard` was never called). -/
structure RunResult where
  exit : Nat
  msgs : List String
  toc : List String
  clip : Option String
deriving DecidableEq, Repr

/-- `main(args)`.  The file read is an external effect: `readResult` is the
list of lines on success, or the `OSError`'s `strerror` on failure.  The
body follows the source statement by statement: resolve the whitelist,
validate the path (return 1 on failure), open and parse the file (return 1
printing `strerror` on `OSError`), report `"No Headers found."` and return 1
on an empty result, optionally sort, optionally print, optionally copy to
the clipboard, return 0. -/
def main (a : Args) (readResult : Except String (List String)) : RunResult :=
  let heading_whitelist := _get_heading_whitelist a.whitelist
  let wmsgs := whitelistMsgs a.whitelist
  let v := _valid_path a.path
  if !v.1 then
    { exit := 1, msgs := wmsgs ++ v.2, toc := [], clip := none }
  else
    match readResult with
    | Except.error e =>
      { exit := 1, msgs := wmsgs ++ [e], toc := [], clip := none }
    | Except.ok lines =>
      let results := parse_file lines heading_whitelist
      if results.isEmpty then
        { exit := 1, msgs := wmsgs ++ ["No Headers found."], toc := [], clip := none }
      else
        let results := if a.alphabetical then pySorted results else results
        { exit := 0
          msgs := wmsgs
          toc := if a.output then results else []
          clip := if a.clipboard then some (pyJoin "\n" results) else none }

/-- The `if __name__ == "__main__"` block: it calls `main(args)` and
discards the returned value, so the interpreter exits with status 0
whenever `main` returns at all. -/
def script_exit (a : Args) (readResult : Except String (List String)) : Nat :=
  let _ := main a readResult
  0

/-- The value of the `fenced_code` flag after processing a list of lines,
starting from `f`. -/
def stateAfter (f : Bool) : List String → Bool
  | [] => f
  | line :: rest => stateAfter (lineFenced f line) rest

/-- The integers that Python's `WHITELIST[i - 1]` accepts: `1`–`6` index from
the front and `0`, `-1`, …, `-5` index from the back. -/
def validIndex (i : Int) : Bool :=
  decide (-5 ≤ i ∧ i ≤ 6)

/-- Closed form of the marker `WHITELIST[i - 1]` for an accepted integer:
`1 ↦ "#"`, …, `6 ↦ "######"`, and `0, -1, …, -5` wrap around to
`"######", "#####", …, "#"`. -/
def markerFor (i : Int) : String :=
  String.mk (List.replicate (((i - 1 + 6) % 6).toNat + 1) '#')

/-- Modelled from the spec: the title component of a rendered entry
`"[title](#anchor)"`, recovered as the text between the opening bracket and
the first closing bracket.  Used only to state what sorting "by title
string" would mean. -/
def entryTitleSpec (s : String) : String :=
  String.mk ((s.data.drop 1).takeWhile (fun c => c ≠ ']'))

/-- Modelled from the spec: re-sorting the extracted entries "into a stable
total order by title string" — a stable ascending sort comparing the title
components of the rendered entries. -/
def sortByTitleSpec (xs : List String) : List String :=
  List.insertionSort (fun a b => pyStrLe (entryTitleSpec a) (entryTitleSpec b) = true) xs

/-! ## Helper lemmas -/

theorem hash_head {line : String} (h : pyStartswith line "#" = true) :
    ∃ tl, line.data = '#' :: tl := by
  unfold pyStartswith at h
  rw [show ("#" : String).data = ['#'] from rfl] at h
  cases hd : line.data with
  | nil => rw [hd] at h; simp [List.isPrefixOf] at h
  | cons c cs =>
    rw [hd] at h
    simp [List.isPrefixOf] at h
    exact ⟨cs, by rw [h]⟩

theorem fence_head {line : String} (h : isFenceLine line = true) :
    ∃ tl, line.data = '`' :: tl := by
  unfold isFenceLine pyStartswith at h
  rw [show ("```" : String).data = ['`', '`', '`'] from rfl] at h
  cases hd : line.data with
  | nil => rw [hd] at h; simp [List.isPrefixOf] at h
  | cons c cs =>
    rw [hd] at h
    simp [List.isPrefixOf] at h
    exact ⟨cs, by rw [h.1]⟩

theorem fence_not_hash {line : String} (h : isFenceLine line = true) :
    pyStartswith line "#" = false := by
  obtain ⟨tl, hd⟩ := fence_head h
  unfold pyStartswith
  rw [show ("#" : String).data = ['#'] from rfl, hd]
  simp [List.isPrefixOf]

theorem hash_not_fence {line : String} (h : pyStartswith line "#" = true) :
    isFenceLine line = false := by
  obtain ⟨tl, hd⟩ := hash_head h
  unfold isFenceLine pyStartswith
  rw [show ("```" : String).data = ['`', '`', '`'] from rfl, hd]
  simp [List.isPrefixOf]

theorem parseFileFrom_append (headings pre suf : List String) :
    ∀ f, parseFileFrom headings f (pre ++ suf) =
      parseFileFrom headings f pre ++ parseFileFrom headings (stateAfter f pre) suf := by
  induction pre with
  | nil => intro f; simp [parseFileFrom, stateAfter]
  | cons l ls ih => intro f; simp [parseFileFrom, stateAfter, ih, List.append_assoc]

theorem stateAfter_parity (lines : List String) :
    ∀ f : Bool, stateAfter f lines = (f != decide (lines.countP isFenceLine % 2 = 1)) := by
  induction lines with
  | nil => intro f; simp [stateAfter]
  | cons l ls ih =>
    intro f
    show stateAfter (lineFenced f l) ls = _
    rw [ih, List.countP_cons]
    by_cases h : isFenceLine l
    · have hflip : ∀ n : Nat, decide ((n + 1) % 2 = 1) = !decide (n % 2 = 1) := by
        intro n
        rcases Nat.mod_two_eq_zero_or_one n with h2 | h2 <;> simp [Nat.add_mod, h2]
      simp only [lineFenced, h, if_true, if_pos]
      rw [hflip]
      generalize decide (ls.countP isFenceLine % 2 = 1) = b
      cases f <;> cases b <;> rfl
    · simp [lineFenced, h]

theorem mem_dropWhile_of_not {α : Type} (p : α → Bool) {a : α} :
    ∀ {l : List α}, a ∈ l → p a = false → a ∈ l.dropWhile p := by
  intro l
  induction l with
  | nil => intro h _; cases h
  | cons x xs ih =>
    intro hmem hpa
    cases hx : p x with
    | true =>
      simp only [List.dropWhile, hx]
      rcases List.mem_cons.mp hmem with rfl | hmem'
      · rw [hx] at hpa; cases hpa
      · exact ih hmem' hpa
    | false =>
      simp only [List.dropWhile, hx]
      exact hmem

theorem pySplitGo_ne_nil :
    ∀ (cs cur : List Char), ((∃ c ∈ cs, pyIsSpace c = false) ∨ cur ≠ []) →
      pySplitGo cs cur ≠ [] := by
  intro cs
  induction cs with
  | nil =>
    intro cur h
    rcases h with ⟨c, hc, _⟩ | h
    · simp at hc
    · simp [pySplitGo, h]
  | cons c cs ih =>
    intro cur h
    by_cases hsp : pyIsSpace c
    · by_cases hcur : cur.isEmpty
      · simp only [pySplitGo, hsp, if_true, hcur]
        apply ih
        left
        rcases h with ⟨c', hc', hns⟩ | hne
        · rcases List.mem_cons.mp hc' with rfl | hc''
          · rw [hsp] at hns; cases hns
          · exact ⟨c', hc'', hns⟩
        · exact absurd (List.isEmpty_iff.mp hcur) hne
      · simp [pySplitGo, hsp, hcur]
    · simp only [pySplitGo, Bool.not_eq_true] at hsp ⊢
      rw [hsp]
      simp only [Bool.false_eq_true, if_false]
      exact ih (c :: cur) (Or.inr (by simp))

theorem pySplit_rstrip_ne_nil {line : String} (h : pyStartswith line "#" = true) :
    pySplit (pyRstrip line) ≠ [] := by
  obtain ⟨tl, hd⟩ := hash_head h
  unfold pySplit pyRstrip
  apply pySplitGo_ne_nil
  left
  refine ⟨'#', ?_, by decide⟩
  show '#' ∈ (line.data.reverse.dropWhile pyIsSpace).reverse
  rw [List.mem_reverse]
  apply mem_dropWhile_of_not
  · rw [List.mem_reverse, hd]; simp
  · decide

theorem pyStrLtb_asymm :
    ∀ as bs : List Char, pyStrLtb as bs = true → pyStrLtb bs as = false := by
  intro as
  induction as with
  | nil =>
    intro bs h
    cases bs with
    | nil => simp [pyStrLtb] at h
    | cons b bs => simp [pyStrLtb]
  | cons a as ih =>
    intro bs h
    cases bs with
    | nil => simp [pyStrLtb] at h
    | cons b bs =>
      simp only [pyStrLtb] at h ⊢
      by_cases hab : a < b
      · have hba : ¬ b < a := lt_asymm hab
        simp [hab, hba]
      · by_cases hba : b < a
        · simp [hab, hba] at h
        · simp only [hab, hba, if_false] at h ⊢
          exact ih bs h

theorem pyStrLtb_trans :
    ∀ as bs cs : List Char, pyStrLtb as bs = true → pyStrLtb bs cs = true →
      pyStrLtb as cs = true := by
  intro as
  induction as with
  | nil =>
    intro bs cs h1 h2
    cases bs with
    | nil => simp [pyStrLtb] at h1
    | cons b bs =>
      cases cs with
      | nil => simp [pyStrLtb] at h2
      | cons c cs => simp [pyStrLtb]
  | cons a as ih =>
    intro bs cs h1 h2
    cases bs with
    | nil => simp [pyStrLtb] at h1
    | cons b bs =>
      cases cs with
      | nil => simp [pyStrLtb] at h2
      | cons c cs =>
        simp only [pyStrLtb] at h1 h2 ⊢
        by_cases hab : a < b
        · by_cases hbc : b < c
          · simp [lt_trans hab hbc]
          · by_cases hcb : c < b
            · simp [hbc, hcb] at h2
            · have hbec : b = c := le_antisymm (not_lt.mp hcb) (not_lt.mp hbc)
              subst hbec
              simp [hab]
        · by_cases hba : b < a
          · simp [hab, hba] at h1
          · have haeb : a = b := le_antisymm (not_lt.mp hba) (not_lt.mp hab)
            subst haeb
            simp only [lt_irrefl, if_false] at h1
            by_cases hac : a < c
            · simp [hac]
            · by_cases hca : c < a
              · simp [hac, hca] at h2
              · simp only [hac, hca, if_false] at h2 ⊢
                exact ih bs cs h1 h2

theorem pyStrLtb_eq_of_not :
    ∀ as bs : List Char, pyStrLtb as bs = false → pyStrLtb bs as = false → as = bs := by
  intro as
  induction as with
  | nil =>
    intro bs h1 _
    cases bs with
    | nil => rfl
    | cons b bs => simp [pyStrLtb] at h1
  | cons a as ih =>
    intro bs h1 h2
    cases bs with
    | nil => simp [pyStrLtb] at h2
    | cons b bs =>
      simp only [pyStrLtb] at h1 h2
      by_cases hab : a < b
      · simp [hab] at h1
      · by_cases hba : b < a
        · simp [hab, hba] at h2
        · have haeb : a = b := le_antisymm (not_lt.mp hba) (not_lt.mp hab)
          simp only [hab, hba, if_false] at h1 h2
          rw [haeb, ih bs h1 h2]

theorem pyStrLe_total (a b : String) : pyStrLe a b = true ∨ pyStrLe b a = true := by
  unfold pyStrLe
  by_cases h : pyStrLtb b.data a.data = true
  · right
    rw [pyStrLtb_asymm _ _ h]
    rfl
  · left
    rw [Bool.not_eq_true] at h
    rw [h]
    rfl

theorem pyStrLe_trans {a b c : String} (h1 : pyStrLe a b = true) (h2 : pyStrLe b c = true) :
    pyStrLe a c = true := by
  unfold pyStrLe at *
  rw [Bool.not_eq_true'] at h1 h2 ⊢
  by_contra hca
  rw [Bool.not_eq_false] at hca
  by_cases hab : pyStrLtb a.data b.data = true
  · rw [pyStrLtb_trans _ _ _ hca hab] at h2; cases h2
  · rw [Bool.not_eq_true] at hab
    have : a.data = b.data := pyStrLtb_eq_of_not _ _ hab h1
    rw [← this] at h2
    rw [hca] at h2
    cases h2

theorem pyIndex_whitelist (i : Int) :
    pyIndex WHITELIST (i - 1) = if validIndex i = true then some (markerFor i) else none := by
  by_cases h : validIndex i = true
  · rw [if_pos h]
    simp only [validIndex, decide_eq_true_eq] at h
    obtain ⟨h1, h2⟩ := h
    interval_cases i <;> decide
  · rw [if_neg h]
    simp only [validIndex, decide_eq_true_eq] at h
    simp only [pyIndex]
    rcases lt_or_le i (-5 : Int) with hlt | hge
    · have hneg : i - 1 < 0 := by omega
      rw [if_pos hneg]
      have hj : ¬ (0 : Int) ≤ i - 1 + WHITELIST.length := by
        simp only [WHITELIST, List.length]
        omega
      rw [if_neg hj]
    · have h6 : 6 < i := by omega
      have hnn : ¬ i - 1 < 0 := by omega
      rw [if_neg hnn, if_pos (by omega : (0 : Int) ≤ i - 1)]
      apply List.get?_eq_none.mpr
      simp only [WHITELIST, List.length]
      omega

theorem whitelistLoop_eq :
    ∀ (args : List Int) (acc : List String),
      whitelistLoop args acc =
        (acc ++ (args.takeWhile validIndex).map markerFor,
          (args.dropWhile validIndex).head?) := by
  intro args
  induction args with
  | nil => intro acc; simp [whitelistLoop]
  | cons i rest ih =>
    intro acc
    simp only [whitelistLoop, pyIndex_whitelist i]
    cases h : validIndex i with
    | true =>
      simp only [h, if_true]
      rw [ih]
      simp [List.takeWhile_cons, List.dropWhile_cons, h, List.append_assoc]
    | false =>
      simp only [h, Bool.false_eq_true, if_false]
      simp [List.takeWhile_cons, List.dropWhile_cons, h]

theorem lineEmitE_ok (headings : List String) (f : Bool) (line : String) :
    lineEmitE headings f line = Except.ok (lineEmit headings f line) := by
  unfold lineEmitE lineEmit
  by_cases hc : (!(lineFenced f line) && pyStartswith line "#") = true
  · rw [if_pos hc, if_pos hc]
    have hh : pyStartswith line "#" = true := by
      cases hps : pyStartswith line "#"
      · rw [hps, Bool.and_false] at hc; cases hc
      · rfl
    cases hsp : pySplit (pyRstrip line) with
    | nil => exact absurd hsp (pySplit_rstrip_ne_nil hh)
    | cons t0 restTok => rfl
  · rw [if_neg hc, if_neg hc]

theorem parseFileFromE_ok (headings : List String) :
    ∀ (lines : List String) (f : Bool),
      parseFileFromE headings f lines = Except.ok (parseFileFrom headings f lines) := by
  intro lines
  induction lines with
  | nil => intro f; rfl
  | cons line rest ih =>
    intro f
    simp only [parseFileFromE, parseFileFrom]
    rw [lineEmitE_ok, ih]
    rfl

/-! ## Claims -/

/-- Claim C1: a heading-like line occurring inside a fenced code block (an
odd number of fence lines precede it) contributes no entry — removing it
leaves the output unchanged — and a line beginning with three backticks
only toggles the fenced flag and is never itself emitted as a heading. -/
theorem claim_C1 :
    (∀ (headings pre : List String) (line : String) (suf : List String),
        pre.countP isFenceLine % 2 = 1 → isFenceLine line = false →
        parse_file (pre ++ line :: suf) headings = parse_file (pre ++ suf) headings)
    ∧ (∀ (headings : List String) (fenced : Bool) (line : String),
        isFenceLine line = true →
        lineEmit headings fenced line = none ∧ lineFenced fenced line = !fenced) := by
  constructor
  · intro headings pre line suf hodd hnf
    unfold parse_file
    rw [parseFileFrom_append, parseFileFrom_append]
    have hst : stateAfter false pre = true := by
      rw [stateAfter_parity]
      simp [hodd]
    rw [hst]
    congr 1
    show parseFileFrom headings true (line :: suf) = parseFileFrom headings true suf
    have hlf : lineFenced true line = true := by simp [lineFenced, hnf]
    have hle : lineEmit headings true line = none := by
      simp only [lineEmit]
      rw [hlf]
      simp
    simp only [parseFileFrom]
    rw [hle, hlf]
    rfl
  · intro headings fenced line hf
    refine ⟨?_, by simp [lineFenced, hf]⟩
    have hnh : pyStartswith line "#" = false := fence_not_hash hf
    simp [lineEmit, hnh]

/-- Claim C1 witness: the heading-like line `"# hidden"` inside the fence
opened by the first backtick line produces nothing, and a fence line is
never emitted. -/
theorem claim_C1_witness :
    parse_file (["```"] ++ "# hidden" :: ["```", "## After"]) WHITELIST =
        parse_file (["```"] ++ ["```", "## After"]) WHITELIST
      ∧ lineEmit WHITELIST false "```" = none :=
  ⟨claim_C1.1 WHITELIST ["```"] "# hidden" ["```", "## After"] (by decide) (by decide),
    (claim_C1.2 WHITELIST false "```" (by decide)).1⟩

/-- Claim C2: outside a fenced block, a line starting with `#` whose first
whitespace token is in the level set contributes exactly one entry, an
excluded marker contributes none, and output follows input order. -/
theorem claim_C2 :
    ∀ (headings pre : List String) (line : String) (suf : List String)
      (t0 : String) (rest : List String),
      pre.countP isFenceLine % 2 = 0 →
      pyStartswith line "#" = true →
      pySplit (pyRstrip line) = t0 :: rest →
      parse_file (pre ++ line :: suf) headings =
        parse_file pre headings
          ++ (if headings.contains t0 then [mkEntry rest] else [])
          ++ parse_file suf headings := by
  intro headings pre line suf t0 rest hev hh hsp
  have hnf : isFenceLine line = false := hash_not_fence hh
  unfold parse_file
  rw [parseFileFrom_append]
  have hst : stateAfter false pre = false := by
    rw [stateAfter_parity]
    simp [hev]
  rw [hst]
  have hlf : lineFenced false line = false := by simp [lineFenced, hnf]
  have hle : lineEmit headings false line =
      (if headings.contains t0 then some (mkEntry rest) else none) := by
    simp only [lineEmit]
    rw [hlf, hh, hsp]
    simp
  show parseFileFrom headings false pre ++ parseFileFrom headings false (line :: suf) = _
  simp only [parseFileFrom]
  rw [hle, hlf]
  cases hct : headings.contains t0 <;> simp [List.append_assoc, Option.toList]

/-- Claim C2 witness: the line `"## Setup"` with the default level set
yields exactly one entry. -/
theorem claim_C2_witness :
    parse_file ([] ++ "## Setup" :: []) WHITELIST =
      parse_file [] WHITELIST
        ++ (if WHITELIST.contains "##" then [mkEntry ["Setup"]] else [])
        ++ parse_file [] WHITELIST :=
  claim_C2 WHITELIST [] "## Setup" [] "##" ["Setup"] (by decide) (by decide) (by decide)

/-- Claim C3: the emitted title is the tokens after the marker joined by
single spaces and the anchor is the same tokens joined by hyphens and
lowercased; multiple spaces collapse, `"My Project Name"` yields anchor
`"my-project-name"` and `"Setup"` yields `"setup"`. -/
theorem claim_C3 :
    (∀ (headings : List String) (fenced : Bool) (line t0 : String) (rest : List String),
        lineFenced fenced line = false →
        pyStartswith line "#" = true →
        pySplit (pyRstrip line) = t0 :: rest →
        headings.contains t0 = true →
        lineEmit headings fenced line =
          some ("[" ++ pyJoin " " rest ++ "](#" ++ pyLower (pyJoin "-" rest) ++ ")"))
    ∧ parse_file ["# My  Project   Name"] WHITELIST = ["[My Project Name](#my-project-name)"]
    ∧ parse_file ["# Setup"] WHITELIST = ["[Setup](#setup)"] := by
  refine ⟨?_, by decide, by decide⟩
  intro headings fenced line t0 rest hlf hh hsp hct
  have hmem : t0 ∈ headings := by simpa using hct
  simp only [lineEmit]
  rw [hlf, hh, hsp]
  simp [hmem, mkEntry]

/-- Claim C3 witness: the line `"# A  B"` is emitted with title `"A B"` and
anchor `"a-b"`. -/
theorem claim_C3_witness :
    lineEmit WHITELIST false "# A  B" =
      some ("[" ++ pyJoin " " ["A", "B"] ++ "](#" ++ pyLower (pyJoin "-" ["A", "B"]) ++ ")") :=
  claim_C3.1 WHITELIST false "# A  B" "#" ["A", "B"] (by decide) (by decide) (by decide)
    (by decide)

/-- Claim C7: a heading line whose marker is in the level set but with no
tokens after the marker is still emitted as the degenerate entry with empty
title and empty anchor. -/
theorem claim_C7 :
    (∀ (headings : List String) (line t0 : String),
        pyStartswith line "#" = true →
        pySplit (pyRstrip line) = [t0] →
        headings.contains t0 = true →
        lineEmit headings false line = some "[](#)")
    ∧ parse_file ["##"] WHITELIST = ["[](#)"] := by
  refine ⟨?_, by decide⟩
  intro headings line t0 hh hsp hct
  have hmem : t0 ∈ headings := by simpa using hct
  have hnf : isFenceLine line = false := hash_not_fence hh
  have hlf : lineFenced false line = false := by simp [lineFenced, hnf]
  simp only [lineEmit]
  rw [hlf, hh, hsp]
  simp only [hmem, mkEntry]
  simp [hmem]
  decide

/-- Claim C7 witness: the bare line `"##"` yields the entry `"[](#)"`. -/
theorem claim_C7_witness : lineEmit WHITELIST false "##" = some "[](#)" :=
  claim_C7.1 WHITELIST "##" "##" (by decide) (by decide) (by decide)

/-- Claim C8: the extractor is total — with the `tokens[0]` access embedded
as a fallible operation, `parse_file` returns `ok` on every input and every
level set, agreeing with the total extractor. -/
theorem claim_C8 :
    ∀ (lines headings : List String),
      parse_fileE lines headings = Except.ok (parse_file lines headings) := by
  intro lines headings
  exact parseFileFromE_ok headings lines false

/-- Claim C4 counterexample: `0` is outside 1–6, so the claim predicts that
it is dropped with a diagnostic and — no valid integers remaining — that
resolution falls back to the full default set.  The code instead maps `0`
through Python negative indexing to `"######"`, prints no diagnostic, and
returns `["######"]`. -/
theorem claim_C4_counterexample :
    _get_heading_whitelist [0] = ["######"]
      ∧ ["######"] ≠ WHITELIST
      ∧ whitelistMsgs [0] = [] := by decide

/-- Claim C4 amended: integers `1`–`6` map to markers of that many hashes,
but integers `0, -1, …, -5` are also accepted, wrapping around to markers of
`i + 6` hashes (Python negative indexing) with no diagnostic; at the first
integer outside `-5`–`6` the loop aborts with a single diagnostic naming
that value, keeping the markers collected so far and discarding the rest of
the list; the full default set is used exactly when no markers were
collected. -/
theorem claim_C4_amended :
    ∀ args : List Int,
      _get_heading_whitelist args =
        (let kept := (args.takeWhile validIndex).map markerFor
         if kept.isEmpty then WHITELIST else kept)
      ∧ whitelistMsgs args =
          ((args.dropWhile validIndex).head?.elim []
            (fun i => ["[-w] Invalid argument: " ++ toString i])) := by
  intro args
  constructor
  · unfold _get_heading_whitelist
    rw [whitelistLoop_eq]
    simp
  · unfold whitelistMsgs
    rw [whitelistLoop_eq]
    cases hh : (args.dropWhile validIndex).head? <;> simp [hh]

/-- Claim C5 counterexample: the alphabetical re-sort orders the rendered
strings `"[title](#anchor)"`, not the titles.  With titles `"AB"` and `"A"`
the rendered strings sort `"[AB](#ab)"` before `"[A](#a)"` (because
`'B' < ']'`), while a stable sort by title string would put title `"A"`
first. -/
theorem claim_C5_counterexample :
    pySorted (parse_file ["# AB", "# A"] WHITELIST) = ["[AB](#ab)", "[A](#a)"]
      ∧ sortByTitleSpec (parse_file ["# AB", "# A"] WHITELIST) = ["[A](#a)", "[AB](#ab)"]
      ∧ pySorted (parse_file ["# AB", "# A"] WHITELIST) ≠
          sortByTitleSpec (parse_file ["# AB", "# A"] WHITELIST)
      ∧ (main ⟨⟨true, ".md"⟩, true, true, true, []⟩
            (Except.ok ["# AB", "# A"])).toc = ["[AB](#ab)", "[A](#a)"] := by decide

/-- Claim C5 amended: when alphabetical mode is requested the final output
is the extracted entries stably re-sorted by the full rendered entry string
`"[title](#anchor)"` under code-point lexicographic order (a sorted
permutation of the entries) — not by the title alone; when it is not
requested, the output preserves the original document order. -/
theorem claim_C5_amended :
    ∀ (a : Args) (lines : List String),
      a.output = true →
      (_valid_path a.path).1 = true →
      parse_file lines (_get_heading_whitelist a.whitelist) ≠ [] →
      (a.alphabetical = true →
          (main a (Except.ok lines)).toc
              = pySorted (parse_file lines (_get_heading_whitelist a.whitelist))
            ∧ (main a (Except.ok lines)).toc.Pairwise (fun x y => pyStrLe x y = true)
            ∧ (main a (Except.ok lines)).toc.Perm
                (parse_file lines (_get_heading_whitelist a.whitelist)))
      ∧ (a.alphabetical = false →
          (main a (Except.ok lines)).toc
            = parse_file lines (_get_heading_whitelist a.whitelist)) := by
  intro a lines hout hvp hne
  have hie : (parse_file lines (_get_heading_whitelist a.whitelist)).isEmpty = false := by
    cases hl : parse_file lines (_get_heading_whitelist a.whitelist) with
    | nil => exact absurd hl hne
    | cons x xs => rfl
  have hmain : (main a (Except.ok lines)).toc =
      (if a.alphabetical then pySorted (parse_file lines (_get_heading_whitelist a.whitelist))
       else parse_file lines (_get_heading_whitelist a.whitelist)) := by
    simp only [main]
    rw [hvp, hie]
    simp [hout]
  constructor
  · intro halpha
    rw [hmain, halpha]
    rw [if_pos rfl]
    refine ⟨rfl, ?_, ?_⟩
    · haveI htot : IsTotal String (fun x y => pyStrLe x y = true) := ⟨pyStrLe_total⟩
      haveI htr : IsTrans String (fun x y => pyStrLe x y = true) :=
        ⟨fun _ _ _ h1 h2 => pyStrLe_trans h1 h2⟩
      exact List.sorted_insertionSort _ _
    · exact List.perm_insertionSort _ _
  · intro halpha
    rw [hmain, halpha]
    simp

/-- Claim C5 amended witness: a concrete alphabetical run. -/
theorem claim_C5_amended_witness :
    (main ⟨⟨true, ".md"⟩, true, true, true, []⟩ (Except.ok ["# B", "# A"])).toc
        = pySorted (parse_file ["# B", "# A"] (_get_heading_whitelist []))
      ∧ (main ⟨⟨true, ".md"⟩, true, true, true, []⟩ (Except.ok ["# B", "# A"])).toc.Pairwise
          (fun x y => pyStrLe x y = true)
      ∧ (main ⟨⟨true, ".md"⟩, true, true, true, []⟩ (Except.ok ["# B", "# A"])).toc.Perm
          (parse_file ["# B", "# A"] (_get_heading_whitelist [])) :=
  (claim_C5_amended ⟨⟨true, ".md"⟩, true, true, true, []⟩ ["# B", "# A"] rfl (by decide)
    (by decide)).1 rfl

/-- Claim C6: on an invalid path `main` does return 1 together with its
human-readable message, but the `if __name__ == "__main__"` block calls
`main(args)` without propagating the returned value (no `sys.exit`), so the
interpreter's process exit status is 0 on this failure — contradicting the
claimed translation of failures into process exit code 1. -/
theorem claim_C6_exit_status :
    (main ⟨⟨false, ".md"⟩, false, true, true, []⟩ (Except.ok [])).exit = 1
      ∧ (main ⟨⟨false, ".md"⟩, false, true, true, []⟩ (Except.ok [])).msgs
          = ["ERROR:  Invalid path or destination."]
      ∧ script_exit ⟨⟨false, ".md"⟩, false, true, true, []⟩ (Except.ok []) = 0 := by
  decide

/-- Claim C9: on every failure path of `main` the clipboard is untouched and
no TOC line is printed, and the clipboard is written only when the file was
read successfully and extraction produced at least one entry. -/
theorem claim_C9 :
    ∀ (a : Args) (r : Except String (List String)),
      ((main a r).exit = 1 → (main a r).clip = none ∧ (main a r).toc = [])
      ∧ (∀ s, (main a r).clip = some s →
          ∃ lines, r = Except.ok lines ∧
            parse_file lines (_get_heading_whitelist a.whitelist) ≠ []) := by
  intro a r
  by_cases hvp : (_valid_path a.path).1 = true
  · cases r with
    | error e =>
      constructor
      · intro _
        constructor <;> simp [main, hvp]
      · intro s hs
        exfalso
        simp [main, hvp] at hs
    | ok lines =>
      cases hl : parse_file lines (_get_heading_whitelist a.whitelist) with
      | nil =>
        constructor
        · intro _
          constructor <;> simp [main, hvp, hl]
        · intro s hs
          exfalso
          simp [main, hvp, hl] at hs
      | cons x xs =>
        constructor
        · intro hex
          exfalso
          have h0 : (main a (Except.ok lines)).exit = 0 := by
            simp [main, hvp, hl]
          rw [h0] at hex
          cases hex
        · intro s _
          exact ⟨lines, rfl, by rw [hl]; simp⟩
  · have hvp' : (_valid_path a.path).1 = false := by
      cases h : (_valid_path a.path).1
      · rfl
      · exact absurd h hvp
    constructor
    · intro _
      constructor <;> simp [main, hvp']
    · intro s hs
      exfalso
      simp [main, hvp'] at hs

/-- Claim C9 witness: an invalid path leaves the clipboard and the console
untouched. -/
theorem claim_C9_witness :
    (main ⟨⟨false, ".md"⟩, false, true, true, []⟩ (Except.ok ["# Hi"])).clip = none
      ∧ (main ⟨⟨false, ".md"⟩, false, true, true, []⟩ (Except.ok ["# Hi"])).toc = [] :=
  (claim_C9 ⟨⟨false, ".md"⟩, false, true, true, []⟩ (Except.ok ["# Hi"])).1 (by decide)

/-- Claim C10: path validation accepts the markdown extensions
case-insensitively — an existing path whose lowercased suffix is `".md"` or
`".markdown"` passes, and any path whose lowercased suffix is neither fails
with an error message. -/
theorem claim_C10 :
    ∀ p : PathInfo,
      (p.exists_ = true →
        (pyLower p.suffix = ".md" ∨ pyLower p.suffix = ".markdown") →
        (_valid_path p).1 = true)
      ∧ (pyLower p.suffix ≠ ".md" → pyLower p.suffix ≠ ".markdown" →
          (_valid_path p).1 = false ∧ (_valid_path p).2 ≠ []) := by
  intro p
  constructor
  · intro hex hsuf
    rcases hsuf with h | h <;> simp [_valid_path, hex, h]
  · intro h1 h2
    cases hex : p.exists_ with
    | false => simp [_valid_path, hex]
    | true => simp [_valid_path, hex, h1, h2]

/-- Claim C10 witness: `.MD` is accepted, `.txt` is rejected with a
message. -/
theorem claim_C10_witness :
    (_valid_path ⟨true, ".MD"⟩).1 = true
      ∧ (_valid_path ⟨true, ".txt"⟩).1 = false ∧ (_valid_path ⟨true, ".txt"⟩).2 ≠ [] :=
  ⟨(claim_C10 ⟨true, ".MD"⟩).1 rfl (Or.inl (by decide)),
    (claim_C10 ⟨true, ".txt"⟩).2 (by decide) (by decide)⟩

end Mdtoc
